import Mathlib

/-!
Shallow embedding of the tauri-notice-window message-queue core.

The definitions below are translated from the repository's source:
* the message / stored-message data model (`src/types/message.ts`),
* the Dexie-backed durable store helpers (`src/utils/db.ts`),
* the zustand queue store actions (`src/stores/messageQueueStore.ts`),
* the window-presentation helpers (`src/utils/noticeWindow.ts`) and the
  `useHideNotice` hook (`src/hooks/useHideNotice.ts`).

Asynchronous persistence calls are modelled with an explicit error channel:
each operation returns the resulting state together with `Option DbErr`
(`none` = the returned promise resolved, `some e` = it rejected with `e`).
A `FailCfg` record says which of the store's write primitives reject,
modelling an unavailable / failing Durable Store.  The `await`-sequenced
source code propagates a rejection by stopping at the failing call, which
the embedding mirrors by returning the state reached so far together with
the error.  Operations under the default `noFail` configuration give the
pure semantics used by most theorems.
-/

namespace NoticeWindow

/-- `queueStatus` field of a stored row (`src/types/message.ts`). -/
inductive QueueStatus
  | pending
  | showing
  | shown
  | hidden
deriving DecidableEq, Repr

/-- Position preset of `WindowPosition.position` (`src/types/message.ts`). -/
inductive PositionPreset
  | rightBottom
  | rightTop
  | leftBottom
  | leftTop
  | center
deriving DecidableEq, Repr

/-- `WindowPosition` (`src/types/message.ts`): optional explicit coordinates,
optional preset, optional edge padding. -/
structure WindowPosition where
  x : Option Rat
  y : Option Rat
  position : Option PositionPreset
  padding : Option Rat
deriving DecidableEq, Repr

/-- `MessageType` (`src/types/message.ts`).  The `data` payload is opaque to
the queue logic and modelled as a string. -/
structure MessageType where
  id : String
  title : String
  type : String
  data : String
  min_width : Option Rat
  min_height : Option Rat
  windowPosition : Option WindowPosition
deriving DecidableEq, Repr

/-- `StoredMessage` (`src/types/message.ts`): a message plus persistence
fields.  Timestamps are modelled as abstract ticks (`Nat`). -/
structure StoredMessage extends MessageType where
  timestamp : Nat
  isRead : Bool
  isShown : Bool
  queueStatus : QueueStatus
  queuePosition : Nat
deriving DecidableEq, Repr

/-- The Dexie `messages` table, primary-keyed by `id`.  A well-formed table
holds at most one row per id (`storeKeyed` below); the row list order is
irrelevant because every query sorts or filters. -/
abbrev Store := List StoredMessage

/-- All ids in the table are distinct — what Dexie's primary key guarantees. -/
def storeKeyed (st : Store) : Prop := (st.map (fun r => r.id)).Nodup

/-- `db.messages.get(id)` — first (only, when keyed) row with this id. -/
def storeGet (st : Store) (id : String) : Option StoredMessage :=
  st.find? (fun r => r.id == id)

/-- `saveMessage` (`src/utils/db.ts`): build a fresh `pending` row with
`queuePosition = 0` and `put` it (insert-or-replace by id). -/
def saveMessage (st : Store) (now : Nat) (m : MessageType) : Store :=
  let row : StoredMessage :=
    { toMessageType := m, timestamp := now, isRead := false, isShown := false,
      queueStatus := QueueStatus.pending, queuePosition := 0 }
  if st.any (fun r => r.id == m.id) then
    st.map (fun r => if r.id == m.id then row else r)
  else
    st ++ [row]

/-- `hasMessage` (`src/utils/db.ts`). -/
def hasMessage (st : Store) (id : String) : Bool :=
  (storeGet st id).isSome

/-- `db.messages.update(id, changes)` — apply `f` to the row keyed `id`,
no-op when the row is absent. -/
def dbUpdate (st : Store) (id : String) (f : StoredMessage → StoredMessage) : Store :=
  st.map (fun r => if r.id == id then f r else r)

/-- `updateQueueStatus` (`src/utils/db.ts`). -/
def updateQueueStatus (st : Store) (id : String) (status : QueueStatus) : Store :=
  dbUpdate st id (fun r => { r with queueStatus := status })

/-- `markAsShown` (`src/utils/db.ts`). -/
def markAsShown (st : Store) (id : String) : Store :=
  dbUpdate st id (fun r => { r with queueStatus := QueueStatus.shown, isShown := true })

/-- `markAsHidden` (`src/utils/db.ts`). -/
def markAsHidden (st : Store) (id : String) : Store :=
  dbUpdate st id (fun r => { r with queueStatus := QueueStatus.hidden })

/-- `clearPendingMessages` (`src/utils/db.ts`): delete every row whose
status is `pending` or `showing`. -/
def clearPendingMessages (st : Store) : Store :=
  st.filter (fun r =>
    !(r.queueStatus == QueueStatus.pending || r.queueStatus == QueueStatus.showing))

/-- `updateQueuePositions` (`src/utils/db.ts`): batch of single-row
`queuePosition` updates. -/
def updateQueuePositions (st : Store) (ps : List (String × Nat)) : Store :=
  ps.foldl (fun acc p => dbUpdate acc p.1 (fun r => { r with queuePosition := p.2 })) st

/-- Stable insertion into a `queuePosition`-sorted list. -/
def insertByPos (r : StoredMessage) : List StoredMessage → List StoredMessage
  | [] => [r]
  | x :: xs =>
      if r.queuePosition < x.queuePosition then r :: x :: xs
      else x :: insertByPos r xs

/-- Stable sort by `queuePosition` (Dexie's `sortBy`). -/
def sortByPos : List StoredMessage → List StoredMessage
  | [] => []
  | x :: xs => insertByPos x (sortByPos xs)

/-- `getPendingMessages` (`src/utils/db.ts`): the `pending` rows, ascending
by `queuePosition`. -/
def getPendingMessages (st : Store) : List StoredMessage :=
  sortByPos (st.filter (fun r => r.queueStatus == QueueStatus.pending))

/-- The whole observable state of one execution context: the zustand store
fields (`src/stores/messageQueueStore.ts`), the adapter's open-window map
(`activeWindows` in `src/utils/noticeWindow.ts`, as its key set), and the
shared Dexie table. -/
structure World where
  queue : List MessageType
  currentMessage : Option MessageType
  isProcessing : Bool
  initialized : Bool
  activeWindowIds : List String
  openSurfaces : List String
  store : Store
deriving DecidableEq, Repr

/-- The state a fresh context starts from (initial zustand state over an
empty table). -/
def initWorld : World :=
  { queue := [], currentMessage := none, isProcessing := false,
    initialized := false, activeWindowIds := [], openSurfaces := [], store := [] }

/-- A Durable-Store write rejection. -/
inductive DbErr
  | saveFailed
  | statusFailed
  | positionsFailed
deriving DecidableEq, Repr

/-- Which store write primitives reject (model of an unavailable store). -/
structure FailCfg where
  failSave : Bool
  failStatus : Bool
  failPositions : Bool
deriving DecidableEq, Repr

/-- The healthy store: no write rejects. -/
def noFail : FailCfg := ⟨false, false, false⟩

/-- The `(id, array index)` batch built by `persistQueue`
(`src/stores/messageQueueStore.ts`, `queue.map((msg, index) => ...)`),
with the running index made explicit. -/
def queuePositionsFrom (n : Nat) : List MessageType → List (String × Nat)
  | [] => []
  | m :: rest => (m.id, n) :: queuePositionsFrom (n + 1) rest

/-- The `(id, array index)` batch for the whole queue. -/
def queuePositions (q : List MessageType) : List (String × Nat) :=
  queuePositionsFrom 0 q

/-- `persistQueue` (`src/stores/messageQueueStore.ts`): write the current
array indices of the in-memory queue as `queuePosition`s.  On an empty
queue the batch is empty and `updateQueuePositions` awaits `Promise.all([])`,
which performs no store call and cannot reject — so a failing store only
rejects here when the queue is non-empty. -/
def persistQueueR (cfg : FailCfg) (w : World) : World × Option DbErr :=
  if cfg.failPositions ∧ w.queue ≠ [] then (w, some DbErr.positionsFailed)
  else ({ w with store := updateQueuePositions w.store (queuePositions w.queue) }, none)

/-- `showNext` (`src/stores/messageQueueStore.ts`): no-op when busy;
otherwise `dequeue` — on an empty queue clear the flags and return, else
lock in the head, mark it `showing` in the store and persist the positions
of the remaining queue. -/
def showNextR (cfg : FailCfg) (w : World) : World × Option DbErr :=
  if w.isProcessing then (w, none)
  else
    match w.queue with
    | [] => ({ w with isProcessing := false, currentMessage := none }, none)
    | m :: rest =>
        let w1 : World := { w with queue := rest, currentMessage := some m, isProcessing := true }
        if cfg.failStatus then (w1, some DbErr.statusFailed)
        else persistQueueR cfg { w1 with store := updateQueueStatus w1.store m.id QueueStatus.showing }

/-- `enqueue` (`src/stores/messageQueueStore.ts`): save to the store unless
the id already has a row; append to the in-memory queue (and persist
positions) unless the id is already queued; auto-show when the start-state
was idle.  Presence checks use the state snapshot taken at entry, as in the
source. -/
def enqueueR (cfg : FailCfg) (now : Nat) (m : MessageType) (w : World) :
    World × Option DbErr :=
  let saved : World × Option DbErr :=
    if hasMessage w.store m.id then (w, none)
    else if cfg.failSave then (w, some DbErr.saveFailed)
    else ({ w with store := saveMessage w.store now m }, none)
  match saved with
  | (w1, some e) => (w1, some e)
  | (w1, none) =>
      let appended : World × Option DbErr :=
        if w.queue.any (fun q => q.id == m.id) then (w1, none)
        else persistQueueR cfg { w1 with queue := w1.queue ++ [m] }
      match appended with
      | (w2, some e) => (w2, some e)
      | (w2, none) =>
          if w.isProcessing = false ∧ w.currentMessage = none then showNextR cfg w2
          else (w2, none)

/-- `clearCurrent` (`src/stores/messageQueueStore.ts`): synchronously clear
the current message and the busy flag, then fire `showNext()` when the
queue is non-empty.  The call is not awaited, so a rejection inside that
`showNext` never reaches `clearCurrent`'s caller: the error component is
always `none`. -/
def clearCurrentR (cfg : FailCfg) (w : World) : World × Option DbErr :=
  let w1 : World := { w with currentMessage := none, isProcessing := false }
  if w1.queue.length > 0 then ((showNextR cfg w1).1, none)
  else (w1, none)

/-- `initializeFromDatabase` (`src/stores/messageQueueStore.ts`): guarded by
`initialized`; loads the `pending` rows ordered by position and auto-shows
when any exist. -/
def initializeFromDatabaseR (cfg : FailCfg) (w : World) : World × Option DbErr :=
  if w.initialized then (w, none)
  else
    let w1 : World := { w with initialized := true }
    let pend := getPendingMessages w1.store
    if pend.length > 0 then
      showNextR cfg { w1 with queue := pend.map (fun r => r.toMessageType) }
    else (w1, none)

/-- `clearOnLogout` (`src/stores/messageQueueStore.ts`). -/
def clearOnLogoutR (_cfg : FailCfg) (w : World) : World × Option DbErr :=
  let w1 : World := { w with queue := [], currentMessage := none, isProcessing := false,
                             activeWindowIds := [], initialized := false }
  ({ w1 with store := clearPendingMessages w1.store }, none)

/-- `showNext` under a healthy store. -/
def showNext (w : World) : World := (showNextR noFail w).1

/-- `enqueue` under a healthy store. -/
def enqueue (now : Nat) (m : MessageType) (w : World) : World :=
  (enqueueR noFail now m w).1

/-- `clearCurrent` under a healthy store. -/
def clearCurrent (w : World) : World := (clearCurrentR noFail w).1

/-- `initializeFromDatabase` under a healthy store. -/
def initializeFromDatabase (w : World) : World := (initializeFromDatabaseR noFail w).1

/-- `clearOnLogout` under a healthy store. -/
def clearOnLogout (w : World) : World := (clearOnLogoutR noFail w).1

/-- `setCurrentMessage` (`src/stores/messageQueueStore.ts`). -/
def setCurrentMessage (m? : Option MessageType) (w : World) : World :=
  { w with currentMessage := m? }

/-- `setIsProcessing` (`src/stores/messageQueueStore.ts`). -/
def setIsProcessing (b : Bool) (w : World) : World :=
  { w with isProcessing := b }

/-- `addActiveWindow` (`src/stores/messageQueueStore.ts`); ids are already
strings in the model, so `String(id)` is the identity. -/
def addActiveWindow (id : String) (w : World) : World :=
  if id ∈ w.activeWindowIds then w
  else { w with activeWindowIds := w.activeWindowIds ++ [id] }

/-- `removeActiveWindow` (`src/stores/messageQueueStore.ts`). -/
def removeActiveWindow (id : String) (w : World) : World :=
  { w with activeWindowIds := w.activeWindowIds.filter (fun x => x != id) }

/-- The `tauri://destroyed` handler registered by `createNoticeWindow`
(`src/utils/noticeWindow.ts`): drop the id from the adapter map and from
`activeWindowIds`, mark the row `shown`, then `clearCurrent()`. -/
def destroyedHandler (id : String) (w : World) : World :=
  let wA : World := { w with openSurfaces := w.openSurfaces.filter (fun x => x != id) }
  let wB := removeActiveWindow id wA
  let wC : World := { wB with store := markAsShown wB.store id }
  clearCurrent wC

/-- The state reached after `hideNotice`'s `markAsHidden` and the destroyed
handler's cleanup, just before the handler's `clearCurrent`: surface and
active-window tracking dropped, row marked hidden then shown. -/
def handlerBase (id : String) (w : World) : World :=
  { w with openSurfaces := w.openSurfaces.filter (fun x => x != id),
           activeWindowIds := w.activeWindowIds.filter (fun x => x != id),
           store := markAsShown (markAsHidden w.store id) id }

/-- `hideNotice` (`src/hooks/useHideNotice.ts`), sequenced with the handlers
it triggers: mark the row `hidden`; `closeNoticeWindow` destroys the window
when one is open, firing the `tauri://destroyed` handler.  The hook's
`store` is the zustand state object captured when the callback was created
(render time), so the trailing `store.currentMessage?.id === messageId`
check compares against the **pre-hide** current message, not the state the
destroyed handler just produced — when the hidden message was current, the
check matches and a second `clearCurrent` fires. -/
def hideNotice (id : String) (w : World) : World :=
  let w1 : World := { w with store := markAsHidden w.store id }
  let w2 : World :=
    if id ∈ w1.openSurfaces then destroyedHandler id w1
    else w1
  match w.currentMessage with
  | some c => if c.id = id then clearCurrent w2 else w2
  | none => w2

/-! ### Window geometry (`src/utils/noticeWindow.ts`) -/

/-- Relevant notice configuration (`src/config/noticeConfig.ts`): default
window dimensions. -/
structure NoticeConfig where
  defaultWidth : Rat
  defaultHeight : Rat
deriving DecidableEq, Repr

/-- JavaScript `a || b` on `number | undefined`: falls back when the value
is absent or falsy (`0`). -/
def jsOrNum (x : Option Rat) (d : Rat) : Rat :=
  match x with
  | some v => if v = 0 then d else v
  | none => d

/-- The window dimensions chosen by `createNoticeWindow`
(`src/utils/noticeWindow.ts`): `message.min_width || config.defaultWidth`
and `message.min_height || config.defaultHeight`. -/
def noticeWindowSize (cfg : NoticeConfig) (m : MessageType) : Rat × Rat :=
  (jsOrNum m.min_width cfg.defaultWidth, jsOrNum m.min_height cfg.defaultHeight)

/-- `calculateWindowPosition` (`src/utils/noticeWindow.ts`).  `monitor` is
the primary-monitor size when available (`none` models a failed or missing
monitor query). -/
def calculateWindowPosition (width height : Rat) (pc : Option WindowPosition)
    (monitor : Option (Rat × Rat)) : Rat × Rat :=
  let padding := (pc.bind (fun c => c.padding)).getD 20
  match pc.bind (fun c => c.x), pc.bind (fun c => c.y) with
  | some x, some y => (x, y)
  | _, _ =>
      let screenWidth := (monitor.map Prod.fst).getD 1920
      let screenHeight := (monitor.map Prod.snd).getD 1080
      match (pc.bind (fun c => c.position)).getD PositionPreset.rightBottom with
      | PositionPreset.rightBottom => (screenWidth - width - padding, screenHeight - height - padding)
      | PositionPreset.rightTop => (screenWidth - width - padding, padding)
      | PositionPreset.leftBottom => (padding, screenHeight - height - padding)
      | PositionPreset.leftTop => (padding, padding)
      | PositionPreset.center => ((screenWidth - width) / 2, (screenHeight - height) / 2)

/-- The window size exactly as claim C9 words it: `min_width` if present
else `defaultWidth` (and similarly for the height) — no falsiness caveat. -/
def claimedWindowSize (cfg : NoticeConfig) (m : MessageType) : Rat × Rat :=
  (m.min_width.getD cfg.defaultWidth, m.min_height.getD cfg.defaultHeight)

/-- The amended claimed window size: a present but zero `min_width`
(JavaScript-falsy) also falls back to the configured default. -/
def claimedWindowSizeAmended (cfg : NoticeConfig) (m : MessageType) : Rat × Rat :=
  ((match m.min_width with
    | some v => if v ≠ 0 then v else cfg.defaultWidth
    | none => cfg.defaultWidth),
   (match m.min_height with
    | some v => if v ≠ 0 then v else cfg.defaultHeight
    | none => cfg.defaultHeight))

/-- The position exactly as claim C9 words it: the explicit coordinates when
both are provided; otherwise padding defaults to 20, the screen size falls
back to 1920×1080 when display metrics are unavailable, and the preset (or
its absence) selects the corner / center formula. -/
def claimedWindowPosition (width height : Rat) (pc : Option WindowPosition)
    (monitor : Option (Rat × Rat)) : Rat × Rat :=
  match pc.bind (fun c => c.x), pc.bind (fun c => c.y) with
  | some x, some y => (x, y)
  | _, _ =>
      let p := (pc.bind (fun c => c.padding)).getD 20
      let scrW := (monitor.map Prod.fst).getD 1920
      let scrH := (monitor.map Prod.snd).getD 1080
      match pc.bind (fun c => c.position) with
      | some PositionPreset.rightTop => (scrW - width - p, p)
      | some PositionPreset.leftBottom => (p, scrH - height - p)
      | some PositionPreset.leftTop => (p, p)
      | some PositionPreset.center => ((scrW - width) / 2, (scrH - height) / 2)
      | _ => (scrW - width - p, scrH - height - p)

/-! ### Operation sequences (for the reachability claim) -/

/-- The public queue operations named by claim C4. -/
inductive QueueOp where
  | enqueueOp : Nat → MessageType → QueueOp
  | showNextOp : QueueOp
  | clearCurrentOp : QueueOp
  | initializeOp : QueueOp
  | clearOnLogoutOp : QueueOp
  | setCurrentMessageOp : Option MessageType → QueueOp
  | setIsProcessingOp : Bool → QueueOp
deriving DecidableEq

/-- Run one public operation. -/
def QueueOp.apply : QueueOp → World → World
  | QueueOp.enqueueOp now m, w => enqueue now m w
  | QueueOp.showNextOp, w => showNext w
  | QueueOp.clearCurrentOp, w => clearCurrent w
  | QueueOp.initializeOp, w => initializeFromDatabase w
  | QueueOp.clearOnLogoutOp, w => clearOnLogout w
  | QueueOp.setCurrentMessageOp m?, w => setCurrentMessage m? w
  | QueueOp.setIsProcessingOp b, w => setIsProcessing b w

/-- Run a sequence of public operations from a state. -/
def runOps (ops : List QueueOp) (w : World) : World :=
  ops.foldl (fun acc o => o.apply acc) w

/-- The busy-flag invariant claimed by C4. -/
def busyInv (w : World) : Prop :=
  w.isProcessing = true ↔ w.currentMessage ≠ none

/-- The queue-advancing operations: everything except the two raw field
setters. -/
def QueueOp.isCoreOp : QueueOp → Bool
  | QueueOp.setCurrentMessageOp _ => false
  | QueueOp.setIsProcessingOp _ => false
  | _ => true

/-! ### Concrete sample data (for witnesses and counterexamples) -/

/-- A sample message. -/
def msgA : MessageType := ⟨"a", "A", "info", "", none, none, none⟩

/-- A second sample message with a different id. -/
def msgB : MessageType := ⟨"b", "B", "info", "", none, none, none⟩

/-- Shorthand for a stored row built over a message. -/
def mkRow (m : MessageType) (ts : Nat) (s : QueueStatus) (pos : Nat) : StoredMessage :=
  { toMessageType := m, timestamp := ts, isRead := false, isShown := false,
    queueStatus := s, queuePosition := pos }

/-- A corrupt busy world whose queue already holds two entries of one id. -/
def wC2 : World :=
  { initWorld with queue := [msgA, msgA], isProcessing := true }

/-- World in which message "a" is showing with an open surface and "b" is
next in the queue. -/
def wC6 : World :=
  { queue := [msgB], currentMessage := some msgA, isProcessing := true,
    initialized := true, activeWindowIds := ["a"], openSurfaces := ["a"],
    store := [mkRow msgA 0 QueueStatus.showing 0, mkRow msgB 1 QueueStatus.pending 0] }

/-- Idle empty-queue world whose store already holds msgA as a `shown` row. -/
def wC10 : World :=
  { initWorld with store := [mkRow msgA 5 QueueStatus.shown 0] }

/-- Idle world with one pending queued message, persisted. -/
def wC7 : World :=
  { initWorld with queue := [msgA], store := [mkRow msgA 0 QueueStatus.pending 0] }

/-- A store whose status writes reject. -/
def cfgStatusFail : FailCfg := ⟨false, true, false⟩

/-- Idle world with two pending queued messages, both persisted. -/
def wC1 : World :=
  { initWorld with queue := [msgA, msgB],
                   store := [mkRow msgA 0 QueueStatus.pending 0,
                             mkRow msgB 1 QueueStatus.pending 1] }

/-! ### Store-level lemmas -/

/-- Looking up a different id is unaffected by a single-row update, provided
the update does not change the row's id (all the source's updates do not). -/
theorem storeGet_dbUpdate_ne (st : Store) (id id' : String)
    (f : StoredMessage → StoredMessage) (hf : ∀ r, (f r).id = r.id) (h : id' ≠ id) :
    storeGet (dbUpdate st id f) id' = storeGet st id' := by
  induction st with
  | nil => rfl
  | cons r tl ih =>
      simp only [dbUpdate, List.map_cons, storeGet] at *
      by_cases hr : r.id = id
      · have h1 : (if (r.id == id) = true then f r else r) = f r := by simp [hr]
        rw [h1, List.find?_cons_of_neg, List.find?_cons_of_neg]
        · exact ih
        · simp [hr, Ne.symm h]
        · simp [hf r, hr, Ne.symm h]
      · have h1 : (if (r.id == id) = true then f r else r) = r := by simp [hr]
        rw [h1]
        by_cases hr' : r.id = id'
        · rw [List.find?_cons_of_pos, List.find?_cons_of_pos] <;> simp [hr']
        · rw [List.find?_cons_of_neg, List.find?_cons_of_neg]
          · exact ih
          · simp [hr']
          · simp [hr']

/-- Looking up the updated id after a single-row update. -/
theorem storeGet_dbUpdate_self (st : Store) (id : String)
    (f : StoredMessage → StoredMessage) (hf : ∀ r, (f r).id = r.id) :
    storeGet (dbUpdate st id f) id = (storeGet st id).map f := by
  induction st with
  | nil => rfl
  | cons r tl ih =>
      simp only [dbUpdate, List.map_cons, storeGet] at *
      by_cases hr : r.id = id
      · have h1 : (if (r.id == id) = true then f r else r) = f r := by simp [hr]
        rw [h1, List.find?_cons_of_pos, List.find?_cons_of_pos]
        · simp
        · simp [hr]
        · simp [hf r, hr]
      · have h1 : (if (r.id == id) = true then f r else r) = r := by simp [hr]
        rw [h1, List.find?_cons_of_neg, List.find?_cons_of_neg]
        · exact ih
        · simp [hr]
        · simp [hr]

/-- Unfolding one step of the batch position update. -/
theorem updateQueuePositions_cons (st : Store) (p : String × Nat) (tl : List (String × Nat)) :
    updateQueuePositions st (p :: tl)
      = updateQueuePositions (dbUpdate st p.1 (fun r => { r with queuePosition := p.2 })) tl :=
  rfl

/-- A batch position update leaves ids outside the batch untouched. -/
theorem storeGet_updateQueuePositions_notMem (ps : List (String × Nat)) (st : Store)
    (id : String) (h : id ∉ ps.map Prod.fst) :
    storeGet (updateQueuePositions st ps) id = storeGet st id := by
  induction ps generalizing st with
  | nil => rfl
  | cons p tl ih =>
      simp only [List.map_cons, List.mem_cons, not_or] at h
      rw [updateQueuePositions_cons, ih _ h.2,
        storeGet_dbUpdate_ne st p.1 id (fun r => { r with queuePosition := p.2 })
          (fun _ => rfl) h.1]

/-- A batch position update with pairwise-distinct ids writes exactly the
batch's position for each id it contains. -/
theorem storeGet_updateQueuePositions_mem (ps : List (String × Nat)) (st : Store)
    (id : String) (k : Nat) (hnd : (ps.map Prod.fst).Nodup) (h : (id, k) ∈ ps) :
    storeGet (updateQueuePositions st ps) id
      = (storeGet st id).map (fun r => { r with queuePosition := k }) := by
  induction ps generalizing st with
  | nil => cases h
  | cons p tl ih =>
      simp only [List.map_cons, List.nodup_cons] at hnd
      rw [updateQueuePositions_cons]
      rcases List.mem_cons.mp h with h1 | h1
      · subst h1
        rw [storeGet_updateQueuePositions_notMem _ _ _ hnd.1,
          storeGet_dbUpdate_self st id (fun r => { r with queuePosition := k })
            (fun _ => rfl)]
      · have hne : id ≠ p.1 := by
          intro hEq
          exact hnd.1 (hEq ▸ (List.mem_map.mpr ⟨(id, k), h1, rfl⟩))
        rw [ih _ hnd.2 h1,
          storeGet_dbUpdate_ne st p.1 id (fun r => { r with queuePosition := p.2 })
            (fun _ => rfl) hne]

/-- The ids of the position batch are exactly the queue's ids, in order. -/
theorem queuePositionsFrom_map_fst (q : List MessageType) (n : Nat) :
    (queuePositionsFrom n q).map Prod.fst = q.map (fun m => m.id) := by
  induction q generalizing n with
  | nil => rfl
  | cons m rest ih => simp [queuePositionsFrom, ih]

/-- Each queue element contributes its array index to the position batch. -/
theorem get_mem_queuePositionsFrom (q : List MessageType) (n : Nat) (i : Fin q.length) :
    ((q.get i).id, n + i.1) ∈ queuePositionsFrom n q := by
  induction q generalizing n with
  | nil => exact absurd i.2 (by simp)
  | cons m rest ih =>
      cases i using Fin.cases with
      | zero => simp [queuePositionsFrom]
      | succ j =>
          simp only [queuePositionsFrom, List.mem_cons]
          right
          have := ih (n + 1) j
          simpa [Nat.add_assoc, Nat.add_comm 1 j.1] using this

/-! ### Operation unfolding lemmas (healthy store) -/

/-- A busy context ignores `showNext`. -/
theorem showNext_busy (w : World) (h : w.isProcessing = true) : showNext w = w := by
  simp [showNext, showNextR, h]

/-- `showNext` on an idle empty queue just (re)clears the flags. -/
theorem showNext_nil (w : World) (h : w.isProcessing = false) (h2 : w.queue = []) :
    showNext w = { w with isProcessing := false, currentMessage := none } := by
  simp [showNext, showNextR, h, h2]

/-- `showNext` on an idle non-empty queue: pop the head, lock it in, mark it
`showing`, persist the indices of the remainder. -/
theorem showNext_cons (w : World) (m : MessageType) (rest : List MessageType)
    (h : w.isProcessing = false) (h2 : w.queue = m :: rest) :
    showNext w =
      { w with queue := rest, currentMessage := some m, isProcessing := true,
               store := updateQueuePositions
                          (updateQueueStatus w.store m.id QueueStatus.showing)
                          (queuePositions rest) } := by
  simp [showNext, showNextR, h, h2, persistQueueR, noFail]

/-- `clearCurrent` characterized: clear the flags, then run `showNext` when
the queue is non-empty. -/
theorem clearCurrent_unfold (w : World) :
    clearCurrent w =
      if w.queue = [] then { w with currentMessage := none, isProcessing := false }
      else showNext { w with currentMessage := none, isProcessing := false } := by
  by_cases h : w.queue = []
  · simp [clearCurrent, clearCurrentR, h]
  · have hl : 0 < w.queue.length := List.length_pos.mpr h
    simp only [clearCurrent, clearCurrentR, showNext]
    simp [hl, h, Nat.pos_iff_ne_zero]

/-- `enqueue` characterized as save-unless-present, append-and-persist-unless-
queued, then auto-show when the entry state was idle. -/
theorem enqueue_unfold (now : Nat) (m : MessageType) (w : World) :
    enqueue now m w =
      (let st1 := if hasMessage w.store m.id then w.store else saveMessage w.store now m
       let w2 := if w.queue.any (fun q => q.id == m.id) then { w with store := st1 }
                 else { w with store := updateQueuePositions st1 (queuePositions (w.queue ++ [m])),
                               queue := w.queue ++ [m] }
       if w.isProcessing = false ∧ w.currentMessage = none then showNext w2 else w2) := by
  obtain ⟨q, cm, ip, ini, aw, os, st⟩ := w
  by_cases hm : hasMessage st m.id <;>
    by_cases hq : q.any (fun x => x.id == m.id) <;>
    by_cases hi : ip = false ∧ cm = none <;>
    simp [enqueue, enqueueR, noFail, persistQueueR, showNext, hm, hq, hi]

/-- `initializeFromDatabase` characterized. -/
theorem initializeFromDatabase_unfold (w : World) :
    initializeFromDatabase w =
      if w.initialized then w
      else
        (let pend := getPendingMessages w.store
         if pend = [] then { w with initialized := true }
         else showNext { w with initialized := true,
                                queue := pend.map (fun r => r.toMessageType) }) := by
  by_cases h : w.initialized <;>
    by_cases hp : getPendingMessages w.store = [] <;>
      simp [initializeFromDatabase, initializeFromDatabaseR, noFail, showNext, h, hp,
        List.length_pos, List.isEmpty_iff]

/-- `clearOnLogout` characterized. -/
theorem clearOnLogout_unfold (w : World) :
    clearOnLogout w =
      { queue := [], currentMessage := none, isProcessing := false,
        initialized := false, activeWindowIds := [], openSurfaces := w.openSurfaces,
        store := clearPendingMessages w.store } := by
  simp [clearOnLogout, clearOnLogoutR]

/-- Status update viewed through `storeGet`, other ids. -/
theorem storeGet_updateQueueStatus_ne (st : Store) (id id' : String) (s : QueueStatus)
    (h : id' ≠ id) : storeGet (updateQueueStatus st id s) id' = storeGet st id' :=
  storeGet_dbUpdate_ne st id id' (fun r => { r with queueStatus := s }) (fun _ => rfl) h

/-- Status update viewed through `storeGet`, updated id. -/
theorem storeGet_updateQueueStatus_self (st : Store) (id : String) (s : QueueStatus) :
    storeGet (updateQueueStatus st id s) id
      = (storeGet st id).map (fun r => { r with queueStatus := s }) :=
  storeGet_dbUpdate_self st id (fun r => { r with queueStatus := s }) (fun _ => rfl)

/-! ### Claim theorems -/

/-- C1: `showNext()` is a no-op when `isProcessing` is true; otherwise, on an
empty queue it sets `isProcessing = false` and `currentMessage = none` and
returns; otherwise it removes the head of the queue, makes it the current
message with `isProcessing = true`, persists `queueStatus = showing` for it,
and persists queue positions equal to the array indices of the remaining
queue. -/
theorem claim_C1 (w : World) :
    (w.isProcessing = true → showNext w = w)
  ∧ (w.isProcessing = false → w.queue = [] →
      showNext w = { w with isProcessing := false, currentMessage := none })
  ∧ (∀ m rest, w.isProcessing = false → w.queue = m :: rest →
      (((m :: rest).map (fun x => x.id)).Nodup) →
        (showNext w).currentMessage = some m
      ∧ (showNext w).isProcessing = true
      ∧ (showNext w).queue = rest
      ∧ storeGet (showNext w).store m.id
          = (storeGet w.store m.id).map (fun r => { r with queueStatus := QueueStatus.showing })
      ∧ (∀ i : Fin rest.length,
          storeGet (showNext w).store (rest.get i).id
            = (storeGet w.store (rest.get i).id).map
                (fun r => { r with queuePosition := i.1 }))) := by
  refine ⟨showNext_busy w, showNext_nil w, ?_⟩
  intro m rest h h2 hnd
  have hnd2 : (m.id :: rest.map (fun x => x.id)).Nodup := by
    simpa only [List.map_cons] using hnd
  have hnd' := List.nodup_cons.mp hnd2
  have hm : m.id ∉ rest.map (fun x => x.id) := hnd'.1
  rw [showNext_cons w m rest h h2]
  refine ⟨rfl, rfl, rfl, ?_, ?_⟩
  · show storeGet (updateQueuePositions (updateQueueStatus w.store m.id QueueStatus.showing)
      (queuePositions rest)) m.id = _
    rw [storeGet_updateQueuePositions_notMem]
    · exact storeGet_dbUpdate_self w.store m.id
        (fun r => { r with queueStatus := QueueStatus.showing }) (fun _ => rfl)
    · rw [queuePositions, queuePositionsFrom_map_fst]
      exact hm
  · intro i
    have hmem : ((rest.get i).id, i.1) ∈ queuePositions rest := by
      simpa using get_mem_queuePositionsFrom rest 0 i
    have hids : ((queuePositions rest).map Prod.fst).Nodup := by
      rw [queuePositions, queuePositionsFrom_map_fst]
      exact hnd'.2
    show storeGet (updateQueuePositions (updateQueueStatus w.store m.id QueueStatus.showing)
      (queuePositions rest)) (rest.get i).id = _
    rw [storeGet_updateQueuePositions_mem _ _ _ _ hids hmem]
    have hne : (rest.get i).id ≠ m.id := by
      intro hEq
      exact hm (hEq ▸ List.mem_map.mpr ⟨rest.get i, List.get_mem rest i.1 i.2, rfl⟩)
    rw [storeGet_updateQueueStatus_ne w.store m.id (rest.get i).id QueueStatus.showing hne]

/-- Witness for C1 at a concrete idle two-element queue. -/
theorem claim_C1_witness :
    (showNext wC1).currentMessage = some msgA
  ∧ (showNext wC1).isProcessing = true
  ∧ (showNext wC1).queue = [msgB]
  ∧ storeGet (showNext wC1).store msgA.id
      = (storeGet wC1.store msgA.id).map (fun r => { r with queueStatus := QueueStatus.showing }) := by
  have h := (claim_C1 wC1).2.2 msgA [msgB] rfl rfl (by decide)
  exact ⟨h.1, h.2.1, h.2.2.1, h.2.2.2.1⟩

/-- C3: `clearCurrent()` unconditionally clears `currentMessage` and
`isProcessing`, and then runs `showNext()` exactly when the in-memory queue
is non-empty. -/
theorem claim_C3 (w : World) :
    clearCurrent w =
      if w.queue = [] then { w with currentMessage := none, isProcessing := false }
      else showNext { w with currentMessage := none, isProcessing := false } :=
  clearCurrent_unfold w

/-- C8: `clearOnLogout` resets every in-memory field and deletes from the
store exactly the `pending` and `showing` rows; afterwards no pending row
remains. -/
theorem claim_C8 (w : World) :
    (clearOnLogout w).queue = []
  ∧ (clearOnLogout w).currentMessage = none
  ∧ (clearOnLogout w).isProcessing = false
  ∧ (clearOnLogout w).activeWindowIds = []
  ∧ (clearOnLogout w).initialized = false
  ∧ (∀ r : StoredMessage, r ∈ (clearOnLogout w).store ↔
      (r ∈ w.store ∧ r.queueStatus ≠ QueueStatus.pending ∧ r.queueStatus ≠ QueueStatus.showing))
  ∧ getPendingMessages (clearOnLogout w).store = [] := by
  rw [clearOnLogout_unfold]
  refine ⟨rfl, rfl, rfl, rfl, rfl, ?_, ?_⟩
  · intro r
    simp [clearPendingMessages, List.mem_filter, not_or]
  · show getPendingMessages (clearPendingMessages w.store) = []
    have h : (clearPendingMessages w.store).filter
        (fun r => r.queueStatus == QueueStatus.pending) = [] := by
      rw [List.filter_eq_nil_iff]
      intro r hr
      have := (List.mem_filter.mp hr).2
      simp only [Bool.not_eq_true', Bool.or_eq_false_iff, beq_eq_false_iff_ne] at this
      simp [this.1]
    rw [getPendingMessages, h]
    rfl

/-! ### Busy-flag invariant lemmas -/

/-- `busyInv` only looks at two fields. -/
theorem busyInv_congr (w w' : World) (h1 : w'.isProcessing = w.isProcessing)
    (h2 : w'.currentMessage = w.currentMessage) (h : busyInv w) : busyInv w' := by
  rw [busyInv, h1, h2]
  exact h

/-- A non-busy state satisfies the invariant after `showNext`: either both
fields are set or both are cleared. -/
theorem busyInv_showNext_of_not_busy (w : World) (h : w.isProcessing = false) :
    busyInv (showNext w) := by
  cases hq : w.queue with
  | nil => rw [showNext_nil w h hq]; simp [busyInv]
  | cons m rest => rw [showNext_cons w m rest h hq]; simp [busyInv]

/-- `showNext` preserves the invariant. -/
theorem busyInv_showNext (w : World) (h : busyInv w) : busyInv (showNext w) := by
  cases hb : w.isProcessing with
  | true => rw [showNext_busy w hb]; exact h
  | false => exact busyInv_showNext_of_not_busy w hb

/-- `enqueue` preserves the invariant. -/
theorem busyInv_enqueue (now : Nat) (m : MessageType) (w : World) (h : busyInv w) :
    busyInv (enqueue now m w) := by
  simp only [enqueue_unfold]
  by_cases hi : w.isProcessing = false ∧ w.currentMessage = none
  · rw [if_pos hi]
    apply busyInv_showNext_of_not_busy
    by_cases hq : w.queue.any (fun q => q.id == m.id) = true
    · rw [if_pos hq]; exact hi.1
    · rw [if_neg hq]; exact hi.1
  · rw [if_neg hi]
    by_cases hq : w.queue.any (fun q => q.id == m.id) = true
    · rw [if_pos hq]; exact busyInv_congr w _ rfl rfl h
    · rw [if_neg hq]; exact busyInv_congr w _ rfl rfl h

/-- `clearCurrent` establishes the invariant from any state. -/
theorem busyInv_clearCurrent (w : World) : busyInv (clearCurrent w) := by
  rw [clearCurrent_unfold]
  by_cases hq : w.queue = []
  · rw [if_pos hq]; simp [busyInv]
  · rw [if_neg hq]; exact busyInv_showNext_of_not_busy _ rfl

/-- `initializeFromDatabase` preserves the invariant. -/
theorem busyInv_initializeFromDatabase (w : World) (h : busyInv w) :
    busyInv (initializeFromDatabase w) := by
  simp only [initializeFromDatabase_unfold]
  by_cases hi : w.initialized = true
  · rw [if_pos hi]; exact h
  · rw [if_neg hi]
    by_cases hp : getPendingMessages w.store = []
    · rw [if_pos hp]; exact busyInv_congr w _ rfl rfl h
    · rw [if_neg hp]; exact busyInv_showNext _ (busyInv_congr w _ rfl rfl h)

/-- `clearOnLogout` establishes the invariant from any state. -/
theorem busyInv_clearOnLogout (w : World) : busyInv (clearOnLogout w) := by
  rw [clearOnLogout_unfold]
  simp [busyInv]

/-- Every core (non-setter) operation preserves the invariant. -/
theorem busyInv_applyCore (o : QueueOp) (w : World) (ho : o.isCoreOp = true)
    (h : busyInv w) : busyInv (o.apply w) := by
  cases o with
  | enqueueOp now m => exact busyInv_enqueue now m w h
  | showNextOp => exact busyInv_showNext w h
  | clearCurrentOp => exact busyInv_clearCurrent w
  | initializeOp => exact busyInv_initializeFromDatabase w h
  | clearOnLogoutOp => exact busyInv_clearOnLogout w
  | setCurrentMessageOp m? => exact absurd ho (by simp [QueueOp.isCoreOp])
  | setIsProcessingOp b => exact absurd ho (by simp [QueueOp.isCoreOp])

/-- The invariant is preserved along any core-operation sequence. -/
theorem busyInv_runOps (ops : List QueueOp) (w : World)
    (hc : ∀ o ∈ ops, o.isCoreOp = true) (h : busyInv w) : busyInv (runOps ops w) := by
  induction ops generalizing w with
  | nil => exact h
  | cons o tl ih =>
      have h1 : busyInv (o.apply w) :=
        busyInv_applyCore o w (hc o (List.mem_cons_self o tl)) h
      exact ih (o.apply w) (fun o' ho' => hc o' (List.mem_cons_of_mem o ho')) h1

/-- Counterexample to C4 as stated: the operation list of the claim contains
`setCurrentMessage`, and a single `setCurrentMessage(some msgA)` from the
initial state makes `currentMessage` non-null while `isProcessing` stays
false, breaking the claimed equivalence. -/
theorem claim_C4_counterexample :
    ¬ busyInv (runOps [QueueOp.setCurrentMessageOp (some msgA)] initWorld) := by
  simp only [busyInv]
  decide

/-- C4 (amended): in every state reachable from the initial state by the
queue-advancing public operations — enqueue, showNext, clearCurrent,
initializeFromDatabase, clearOnLogout, but not the raw field setters
setCurrentMessage / setIsProcessing — `isProcessing` is true iff
`currentMessage` is not null. -/
theorem claim_C4_amended (ops : List QueueOp) (hc : ∀ o ∈ ops, o.isCoreOp = true) :
    busyInv (runOps ops initWorld) :=
  busyInv_runOps ops initWorld hc (by simp [busyInv, initWorld])

/-- Witness for the amended C4 along a concrete core sequence. -/
theorem claim_C4_amended_witness :
    busyInv (runOps [QueueOp.enqueueOp 0 msgA, QueueOp.clearCurrentOp,
      QueueOp.enqueueOp 1 msgB] initWorld) :=
  claim_C4_amended _ (by decide)

/-! ### Window geometry claims -/

/-- Counterexample to C9 as stated: a present `min_width` of `0` is
JavaScript-falsy, so `createNoticeWindow` uses the configured default width
(400), not the claimed `min_width` (0). -/
theorem claim_C9_counterexample :
    noticeWindowSize ⟨400, 300⟩ ⟨"z", "Z", "info", "", some 0, none, none⟩
      ≠ claimedWindowSize ⟨400, 300⟩ ⟨"z", "Z", "info", "", some 0, none, none⟩ := by
  decide

/-- C9 (amended): the surface size is `min_width` when present **and
non-zero**, else `defaultWidth` (similarly for the height); and
`calculateWindowPosition` matches the claimed position formulas exactly:
explicit coordinates when both are given, padding defaulting to 20, screen
falling back to 1920×1080, and the five preset formulas with absent preset
treated as right-bottom. -/
theorem claim_C9_amended (cfg : NoticeConfig) (m : MessageType) (width height : Rat)
    (pc : Option WindowPosition) (monitor : Option (Rat × Rat)) :
    noticeWindowSize cfg m = claimedWindowSizeAmended cfg m
  ∧ calculateWindowPosition width height pc monitor
      = claimedWindowPosition width height pc monitor := by
  constructor
  · cases hw : m.min_width <;> cases hh : m.min_height <;>
      simp [noticeWindowSize, claimedWindowSizeAmended, jsOrNum, hw, hh, ite_not]
  · cases pc with
    | none => rfl
    | some c =>
        obtain ⟨cx, cy, cpos, cpad⟩ := c
        cases cx <;> cases cy <;> rcases cpos with _ | pr <;> try rfl
        all_goals cases pr <;> rfl

/-! ### Row/entry counting lemmas -/

/-- A row with this id exists iff the count of such rows is positive. -/
theorem hasMessage_iff_countP_pos (st : Store) (id : String) :
    hasMessage st id = true ↔ 0 < st.countP (fun r => r.id == id) := by
  rw [hasMessage, storeGet]
  simp only [List.find?_isSome, List.countP_pos_iff]

/-- `any` is a positive count. -/
theorem any_iff_countP_pos {α : Type} (l : List α) (p : α → Bool) :
    l.any p = true ↔ 0 < l.countP p := by
  rw [List.any_eq_true, List.countP_pos_iff]

/-- A single-row update never changes how many rows carry a given id,
provided the update preserves ids. -/
theorem countP_id_dbUpdate (st : Store) (id x : String)
    (f : StoredMessage → StoredMessage) (hf : ∀ r, (f r).id = r.id) :
    (dbUpdate st id f).countP (fun r => r.id == x) = st.countP (fun r => r.id == x) := by
  rw [dbUpdate, List.countP_map]
  apply List.countP_congr
  intro r _
  by_cases hr : r.id = id
  · simp [Function.comp, hr, hf]
  · simp [Function.comp, hr]

/-- A batch position update never changes how many rows carry a given id. -/
theorem countP_id_updateQueuePositions (ps : List (String × Nat)) (st : Store) (x : String) :
    (updateQueuePositions st ps).countP (fun r => r.id == x)
      = st.countP (fun r => r.id == x) := by
  induction ps generalizing st with
  | nil => rfl
  | cons p tl ih =>
      rw [updateQueuePositions_cons, ih,
        countP_id_dbUpdate st p.1 x (fun r => { r with queuePosition := p.2 }) (fun _ => rfl)]

/-- After `saveMessage` there is exactly one row keyed by the message's id
(in a table that, like Dexie's primary-keyed table, held at most one). -/
theorem countP_saveMessage (st : Store) (now : Nat) (m : MessageType)
    (hs : st.countP (fun r => r.id == m.id) ≤ 1) :
    (saveMessage st now m).countP (fun r => r.id == m.id) = 1 := by
  by_cases ha : st.any (fun r => r.id == m.id) = true
  · have hpos : 0 < st.countP (fun r => r.id == m.id) :=
      (any_iff_countP_pos st _).mp ha
    have heq : (saveMessage st now m).countP (fun r => r.id == m.id)
        = st.countP (fun r => r.id == m.id) := by
      simp only [saveMessage]
      rw [if_pos ha, List.countP_map]
      apply List.countP_congr
      intro r _
      by_cases hr : r.id = m.id
      · simp [Function.comp, hr]
      · simp [Function.comp, hr]
    omega
  · have hzero : st.countP (fun r => r.id == m.id) = 0 := by
      by_contra hne
      exact ha ((any_iff_countP_pos st _).mpr (Nat.pos_of_ne_zero (by omega)))
    simp only [saveMessage]
    rw [if_neg ha, List.countP_append, hzero]
    simp

/-- Status update never changes id counts. -/
theorem countP_id_updateQueueStatus (st : Store) (id : String) (s : QueueStatus) (x : String) :
    (updateQueueStatus st id s).countP (fun r => r.id == x)
      = st.countP (fun r => r.id == x) :=
  countP_id_dbUpdate st id x (fun r => { r with queueStatus := s }) (fun _ => rfl)

/-- `showNext` never adds rows with a given id to the store, and never adds
entries with a given id to the queue. -/
theorem showNext_count (w : World) (x : String) :
    (showNext w).store.countP (fun r => r.id == x) = w.store.countP (fun r => r.id == x)
  ∧ (showNext w).queue.countP (fun q => q.id == x) ≤ w.queue.countP (fun q => q.id == x) := by
  cases hb : w.isProcessing with
  | true => rw [showNext_busy w hb]; exact ⟨rfl, Nat.le_refl _⟩
  | false =>
      cases hq : w.queue with
      | nil =>
          rw [showNext_nil w hb hq]
          refine ⟨rfl, ?_⟩
          show w.queue.countP _ ≤ _
          rw [hq]
      | cons m0 rest =>
          rw [showNext_cons w m0 rest hb hq]
          refine ⟨?_, ?_⟩
          · show (updateQueuePositions (updateQueueStatus w.store m0.id QueueStatus.showing)
              (queuePositions rest)).countP _ = _
            rw [countP_id_updateQueuePositions, countP_id_updateQueueStatus]
          · show rest.countP _ ≤ (m0 :: rest).countP _
            rw [List.countP_cons]
            exact Nat.le_add_right _ _

/-- A non-busy `showNext` on a non-empty queue ends busy. -/
theorem showNext_busy_after (w : World) (h : w.isProcessing = false) (hne : w.queue ≠ []) :
    (showNext w).isProcessing = true := by
  cases hq : w.queue with
  | nil => exact absurd hq hne
  | cons m0 rest => rw [showNext_cons w m0 rest h hq]

/-- One `enqueue` from a sane state: exactly one stored row afterwards, at
most one queue entry afterwards, and the resulting state is never idle. -/
theorem enqueue_count_step (now : Nat) (m : MessageType) (w : World)
    (hq : w.queue.countP (fun q => q.id == m.id) ≤ 1)
    (hs : w.store.countP (fun r => r.id == m.id) ≤ 1) :
    (enqueue now m w).store.countP (fun r => r.id == m.id) = 1
  ∧ (enqueue now m w).queue.countP (fun q => q.id == m.id) ≤ 1
  ∧ ¬((enqueue now m w).isProcessing = false ∧ (enqueue now m w).currentMessage = none) := by
  have hst1 : (if hasMessage w.store m.id then w.store else saveMessage w.store now m).countP
      (fun r => r.id == m.id) = 1 := by
    by_cases hm : hasMessage w.store m.id = true
    · rw [if_pos hm]
      have := (hasMessage_iff_countP_pos w.store m.id).mp hm
      omega
    · rw [if_neg hm]
      exact countP_saveMessage w.store now m hs
  rw [enqueue_unfold]
  dsimp only
  by_cases hi : w.isProcessing = false ∧ w.currentMessage = none
  · rw [if_pos hi]
    by_cases hqa : w.queue.any (fun q => q.id == m.id) = true
    · rw [if_pos hqa]
      have hne : w.queue ≠ [] := by
        intro hnil
        rw [hnil] at hqa
        exact Bool.false_ne_true hqa
      have hbusy : (showNext { w with store := (if hasMessage w.store m.id then w.store
          else saveMessage w.store now m) }).isProcessing = true :=
        showNext_busy_after _ hi.1 hne
      refine ⟨?_, ?_, ?_⟩
      · rw [(showNext_count _ m.id).1]
        exact hst1
      · exact Nat.le_trans (showNext_count _ m.id).2 hq
      · intro hcon
        rw [hbusy] at hcon
        exact Bool.noConfusion hcon.1
    · rw [if_neg hqa]
      have hzero : w.queue.countP (fun q => q.id == m.id) = 0 := by
        by_contra hnz
        exact hqa ((any_iff_countP_pos w.queue _).mpr (Nat.pos_of_ne_zero hnz))
      have hne : w.queue ++ [m] ≠ [] := by simp
      have hbusy : (showNext { w with
          store := updateQueuePositions (if hasMessage w.store m.id then w.store
            else saveMessage w.store now m) (queuePositions (w.queue ++ [m])),
          queue := w.queue ++ [m] }).isProcessing = true :=
        showNext_busy_after _ hi.1 hne
      refine ⟨?_, ?_, ?_⟩
      · rw [(showNext_count _ m.id).1]
        show (updateQueuePositions _ _).countP _ = 1
        rw [countP_id_updateQueuePositions]
        exact hst1
      · refine Nat.le_trans (showNext_count _ m.id).2 ?_
        show (w.queue ++ [m]).countP _ ≤ 1
        rw [List.countP_append, hzero]
        simp
      · intro hcon
        rw [hbusy] at hcon
        exact Bool.noConfusion hcon.1
  · rw [if_neg hi]
    by_cases hqa : w.queue.any (fun q => q.id == m.id) = true
    · rw [if_pos hqa]
      exact ⟨hst1, hq, fun hcon => hi ⟨hcon.1, hcon.2⟩⟩
    · rw [if_neg hqa]
      have hzero : w.queue.countP (fun q => q.id == m.id) = 0 := by
        by_contra hnz
        exact hqa ((any_iff_countP_pos w.queue _).mpr (Nat.pos_of_ne_zero hnz))
      refine ⟨?_, ?_, fun hcon => hi ⟨hcon.1, hcon.2⟩⟩
      · show (updateQueuePositions _ _).countP _ = 1
        rw [countP_id_updateQueuePositions]
        exact hst1
      · show (w.queue ++ [m]).countP _ ≤ 1
        rw [List.countP_append, hzero]
        simp

/-- A second `enqueue` of the same id from a non-idle state with exactly one
stored row: exactly one queue entry and one stored row result. -/
theorem enqueue_count_again (now : Nat) (m : MessageType) (w : World)
    (hq : w.queue.countP (fun q => q.id == m.id) ≤ 1)
    (hs : w.store.countP (fun r => r.id == m.id) = 1)
    (hi : ¬(w.isProcessing = false ∧ w.currentMessage = none)) :
    (enqueue now m w).queue.countP (fun q => q.id == m.id) = 1
  ∧ (enqueue now m w).store.countP (fun r => r.id == m.id) = 1 := by
  have hm : hasMessage w.store m.id = true :=
    (hasMessage_iff_countP_pos w.store m.id).mpr (by rw [hs]; exact Nat.one_pos)
  rw [enqueue_unfold]
  dsimp only
  rw [if_neg hi, if_pos hm]
  by_cases hqa : w.queue.any (fun q => q.id == m.id) = true
  · rw [if_pos hqa]
    have hpos := (any_iff_countP_pos w.queue _).mp hqa
    refine ⟨?_, hs⟩
    show w.queue.countP (fun q => q.id == m.id) = 1
    omega
  · rw [if_neg hqa]
    have hzero : w.queue.countP (fun q => q.id == m.id) = 0 := by
      by_contra hnz
      exact hqa ((any_iff_countP_pos w.queue _).mpr (Nat.pos_of_ne_zero hnz))
    refine ⟨?_, ?_⟩
    · show (w.queue ++ [m]).countP _ = 1
      rw [List.countP_append, hzero]
      simp
    · show (updateQueuePositions _ _).countP _ = 1
      rw [countP_id_updateQueuePositions]
      exact hs

/-- Counterexample to C2 as stated ("every starting state"): from a corrupt
state whose queue already holds two entries with the id and whose busy flag
is set, two `enqueue`s of the same message leave both duplicate entries in
place. -/
theorem claim_C2_counterexample :
    ¬ ((enqueue 1 msgA (enqueue 0 msgA wC2)).queue.countP (fun q => q.id == msgA.id) = 1
     ∧ (enqueue 1 msgA (enqueue 0 msgA wC2)).store.countP (fun r => r.id == msgA.id) = 1) := by
  decide

/-- C2 (amended): for every starting state whose in-memory queue holds at
most one entry with the message's id and whose store — as Dexie's primary
key guarantees — holds at most one row with it, two completed `enqueue(m)`
calls leave exactly one queue entry and exactly one stored row with that
id. -/
theorem claim_C2_amended (now1 now2 : Nat) (m : MessageType) (w : World)
    (hq : w.queue.countP (fun q => q.id == m.id) ≤ 1)
    (hs : w.store.countP (fun r => r.id == m.id) ≤ 1) :
    (enqueue now2 m (enqueue now1 m w)).queue.countP (fun q => q.id == m.id) = 1
  ∧ (enqueue now2 m (enqueue now1 m w)).store.countP (fun r => r.id == m.id) = 1 := by
  obtain ⟨h1s, h1q, h1i⟩ := enqueue_count_step now1 m w hq hs
  exact enqueue_count_again now2 m _ h1q h1s h1i

/-- Witness for the amended C2 from the empty initial state. -/
theorem claim_C2_amended_witness :
    (enqueue 1 msgA (enqueue 0 msgA initWorld)).queue.countP (fun q => q.id == msgA.id) = 1
  ∧ (enqueue 1 msgA (enqueue 0 msgA initWorld)).store.countP (fun r => r.id == msgA.id) = 1 :=
  claim_C2_amended 0 1 msgA initWorld (by decide) (by decide)

/-! ### Error propagation -/

/-- A failing status write surfaces from any `showNext` that reaches it. -/
theorem showNextR_err_status (cfg : FailCfg) (w : World) (h : w.isProcessing = false)
    (hne : w.queue ≠ []) (hst : cfg.failStatus = true) : (showNextR cfg w).2 ≠ none := by
  cases hq : w.queue with
  | nil => exact absurd hq hne
  | cons m0 rest => simp [showNextR, h, hq, hst]

/-- A failing positions write surfaces from any `showNext` whose remaining
queue is non-empty (an empty remainder performs no store call). -/
theorem showNextR_err_positions (cfg : FailCfg) (w : World) (m0 : MessageType)
    (rest : List MessageType) (h : w.isProcessing = false) (hq : w.queue = m0 :: rest)
    (hrest : rest ≠ []) (hst : cfg.failStatus = false) (hp : cfg.failPositions = true) :
    (showNextR cfg w).2 ≠ none := by
  simp [showNextR, persistQueueR, h, hq, hrest, hst, hp]

/-- Counterexample to C7 as stated: `clearCurrent` fires `showNext()` without
awaiting it, so when the status write inside that `showNext` rejects, the
rejection is raised (the invoked `showNext` reports `statusFailed`) but
`clearCurrent`'s own result carries no error to its caller. -/
theorem claim_C7_counterexample :
    (showNextR cfgStatusFail { wC7 with currentMessage := none, isProcessing := false }).2
        = some DbErr.statusFailed
  ∧ (clearCurrentR cfgStatusFail wC7).2 = none := by
  decide

/-- C7 (amended): `enqueue` and `showNext` propagate every Durable Store
write rejection they encounter — a failing save, a failing positions write
(whenever the batch is non-empty, so a store call actually happens), a
failing status write, including failures inside the `showNext` that
`enqueue` auto-invokes — to their caller; `clearCurrent`, which does not
await the `showNext` it invokes, never reports an error to its caller. -/
theorem claim_C7_amended (cfg : FailCfg) (now : Nat) (m : MessageType) (w : World) :
    (w.isProcessing = false → w.queue ≠ [] → cfg.failStatus = true →
      (showNextR cfg w).2 ≠ none)
  ∧ (∀ m0 rest, w.isProcessing = false → w.queue = m0 :: rest → rest ≠ [] →
      cfg.failStatus = false → cfg.failPositions = true → (showNextR cfg w).2 ≠ none)
  ∧ (hasMessage w.store m.id = false → cfg.failSave = true →
      (enqueueR cfg now m w).2 ≠ none)
  ∧ (cfg.failSave = false → w.queue.any (fun q => q.id == m.id) = false →
      cfg.failPositions = true → (enqueueR cfg now m w).2 ≠ none)
  ∧ (cfg.failSave = false → cfg.failPositions = false → cfg.failStatus = true →
      w.isProcessing = false → w.currentMessage = none →
      (enqueueR cfg now m w).2 ≠ none)
  ∧ (clearCurrentR cfg w).2 = none := by
  refine ⟨showNextR_err_status cfg w,
    fun m0 rest h hq hrest hst hp => showNextR_err_positions cfg w m0 rest h hq hrest hst hp,
    ?_, ?_, ?_, ?_⟩
  · intro hm hsv
    simp [enqueueR, hm, hsv]
  · intro hsv hqa hp
    by_cases hm : hasMessage w.store m.id = true
    · simp [enqueueR, hm, hsv, hqa, hp, persistQueueR]
    · simp [enqueueR, hm, hsv, hqa, hp, persistQueueR]
  · intro hsv hp hst hb hc
    by_cases hm : hasMessage w.store m.id = true <;>
      by_cases hqa : w.queue.any (fun q => q.id == m.id) = true
    · have hne : w.queue ≠ [] := by
        intro hnil
        rw [hnil] at hqa
        exact Bool.false_ne_true hqa
      simp only [enqueueR, hm, if_pos, if_true, hqa, hb, hc, and_self, if_false]
      exact showNextR_err_status cfg _ hb hne hst
    · simp only [enqueueR, hm, hqa, hsv, hp, hb, hc, persistQueueR]
      simp only [Bool.false_eq_true, if_false, if_true, and_self, ite_true, ite_false]
      exact showNextR_err_status cfg _ hb (by simp) hst
    · have hne : w.queue ≠ [] := by
        intro hnil
        rw [hnil] at hqa
        exact Bool.false_ne_true hqa
      simp only [enqueueR, hm, hsv, hqa, hb, hc, Bool.false_eq_true, if_false, if_true,
        and_self, ite_true, ite_false]
      exact showNextR_err_status cfg _ rfl hne hst
    · simp only [enqueueR, hm, hqa, hsv, hp, hb, hc, persistQueueR, Bool.false_eq_true,
        if_false, if_true, and_self, ite_true, ite_false]
      exact showNextR_err_status cfg _ rfl (by simp) hst
  · show (clearCurrentR cfg w).2 = none
    by_cases hl : ({ w with currentMessage := none, isProcessing := false } : World).queue.length > 0
    · simp [clearCurrentR, hl]
    · simp [clearCurrentR, hl]

/-- Witness for the amended C7: the failing status write is reported by
`showNext`, and `clearCurrent` reports nothing, at a concrete world. -/
theorem claim_C7_amended_witness :
    (showNextR cfgStatusFail wC7).2 ≠ none
  ∧ (clearCurrentR cfgStatusFail wC7).2 = none :=
  ⟨(claim_C7_amended cfgStatusFail 0 msgA wC7).1 rfl (by decide) rfl,
   (claim_C7_amended cfgStatusFail 0 msgA wC7).2.2.2.2.2⟩

/-! ### Restart durability -/

/-- Counterexample to C5 as stated: after `enqueue(m1); enqueue(m2)` the
first message is already persisted with `queueStatus = showing` (the idle
enqueue auto-showed it), and `initializeFromDatabase` reloads only
`pending` rows — so a restart restores neither the queue `[m1, m2]` nor
`m1` as the current message; `m2` becomes current instead. -/
theorem claim_C5_counterexample :
    ¬ ((initializeFromDatabase { initWorld with
          store := (enqueue 1 msgB (enqueue 0 msgA initWorld)).store }).queue = [msgA, msgB]
      ∧ (initializeFromDatabase { initWorld with
          store := (enqueue 1 msgB (enqueue 0 msgA initWorld)).store }).currentMessage
            = some msgA) := by
  decide

/-- C5 (amended): from an empty store and empty idle queue, after
`enqueue(m1)` then `enqueue(m2)` complete and a simulated restart (fresh
Queue State over the same store), `initializeFromDatabase` reloads only the
`pending` row `m2`: `m2` becomes the current message, the in-memory queue
ends empty, and `m1`'s row is left behind with `queueStatus = showing`. -/
theorem claim_C5_amended (now1 now2 : Nat) (m1 m2 : MessageType) (h : m1.id ≠ m2.id) :
    (initializeFromDatabase { initWorld with
        store := (enqueue now2 m2 (enqueue now1 m1 initWorld)).store }).currentMessage = some m2
  ∧ (initializeFromDatabase { initWorld with
        store := (enqueue now2 m2 (enqueue now1 m1 initWorld)).store }).queue = []
  ∧ (storeGet (initializeFromDatabase { initWorld with
        store := (enqueue now2 m2 (enqueue now1 m1 initWorld)).store }).store m1.id).map
        (fun r => r.queueStatus) = some QueueStatus.showing := by
  have hb21 : (m2.id == m1.id) = false := by simp [Ne.symm h]
  have hb12 : (m1.id == m2.id) = false := by simp [h]
  have e1 : enqueue now1 m1 initWorld =
      { queue := [], currentMessage := some m1, isProcessing := true, initialized := false,
        activeWindowIds := [], openSurfaces := [],
        store := [{ toMessageType := m1, timestamp := now1, isRead := false, isShown := false,
                    queueStatus := QueueStatus.showing, queuePosition := 0 }] } := by
    simp [enqueue, enqueueR, noFail, hasMessage, storeGet, saveMessage, persistQueueR,
      updateQueuePositions, queuePositions, queuePositionsFrom, dbUpdate, updateQueueStatus,
      showNextR, initWorld]
  have e2 : enqueue now2 m2 (enqueue now1 m1 initWorld) =
      { queue := [m2], currentMessage := some m1, isProcessing := true, initialized := false,
        activeWindowIds := [], openSurfaces := [],
        store := [{ toMessageType := m1, timestamp := now1, isRead := false, isShown := false,
                    queueStatus := QueueStatus.showing, queuePosition := 0 },
                  { toMessageType := m2, timestamp := now2, isRead := false, isShown := false,
                    queueStatus := QueueStatus.pending, queuePosition := 0 }] } := by
    rw [e1]
    simp [enqueue, enqueueR, noFail, hasMessage, storeGet, saveMessage, persistQueueR,
      updateQueuePositions, queuePositions, queuePositionsFrom, dbUpdate, updateQueueStatus,
      showNextR, hb21, hb12]
  rw [e2]
  have e3 : initializeFromDatabase { initWorld with
      store := [{ toMessageType := m1, timestamp := now1, isRead := false, isShown := false,
                  queueStatus := QueueStatus.showing, queuePosition := 0 },
                { toMessageType := m2, timestamp := now2, isRead := false, isShown := false,
                  queueStatus := QueueStatus.pending, queuePosition := 0 }] } =
      { queue := [], currentMessage := some m2, isProcessing := true, initialized := true,
        activeWindowIds := [], openSurfaces := [],
        store := [{ toMessageType := m1, timestamp := now1, isRead := false, isShown := false,
                    queueStatus := QueueStatus.showing, queuePosition := 0 },
                  { toMessageType := m2, timestamp := now2, isRead := false, isShown := false,
                    queueStatus := QueueStatus.showing, queuePosition := 0 }] } := by
    simp [initializeFromDatabase, initializeFromDatabaseR, noFail, getPendingMessages,
      sortByPos, insertByPos, showNextR, persistQueueR, updateQueuePositions, queuePositions,
      queuePositionsFrom, dbUpdate, updateQueueStatus, initWorld, hb12, hb21]
  rw [e3]
  refine ⟨rfl, rfl, ?_⟩
  simp [storeGet, hb21]

/-- Witness for the amended C5 with two concrete messages. -/
theorem claim_C5_amended_witness :
    (initializeFromDatabase { initWorld with
        store := (enqueue 0 msgB (enqueue 0 msgA initWorld)).store }).currentMessage = some msgB
  ∧ (initializeFromDatabase { initWorld with
        store := (enqueue 0 msgB (enqueue 0 msgA initWorld)).store }).queue = []
  ∧ (storeGet (initializeFromDatabase { initWorld with
        store := (enqueue 0 msgB (enqueue 0 msgA initWorld)).store }).store msgA.id).map
        (fun r => r.queueStatus) = some QueueStatus.showing :=
  claim_C5_amended 0 0 msgA msgB (by decide)

/-! ### Hide / revocation -/

/-- `showNext` never touches the adapter's open-surface set. -/
theorem showNext_openSurfaces (w : World) : (showNext w).openSurfaces = w.openSurfaces := by
  cases hb : w.isProcessing with
  | true => rw [showNext_busy w hb]
  | false =>
      cases hq : w.queue with
      | nil => rw [showNext_nil w hb hq]
      | cons m0 rest => rw [showNext_cons w m0 rest hb hq]

/-- `showNext` never touches `activeWindowIds`. -/
theorem showNext_activeWindowIds (w : World) :
    (showNext w).activeWindowIds = w.activeWindowIds := by
  cases hb : w.isProcessing with
  | true => rw [showNext_busy w hb]
  | false =>
      cases hq : w.queue with
      | nil => rw [showNext_nil w hb hq]
      | cons m0 rest => rw [showNext_cons w m0 rest hb hq]

/-- `clearCurrent` never touches the adapter's open-surface set. -/
theorem clearCurrent_openSurfaces (w : World) :
    (clearCurrent w).openSurfaces = w.openSurfaces := by
  rw [clearCurrent_unfold]
  by_cases hq : w.queue = []
  · rw [if_pos hq]
  · rw [if_neg hq, showNext_openSurfaces]

/-- `clearCurrent` never touches `activeWindowIds`. -/
theorem clearCurrent_activeWindowIds (w : World) :
    (clearCurrent w).activeWindowIds = w.activeWindowIds := by
  rw [clearCurrent_unfold]
  by_cases hq : w.queue = []
  · rw [if_pos hq]
  · rw [if_neg hq, showNext_activeWindowIds]

/-- `clearCurrent` on an empty queue leaves no current message. -/
theorem clearCurrent_current_nil (w : World) (hq : w.queue = []) :
    (clearCurrent w).currentMessage = none := by
  rw [clearCurrent_unfold, if_pos hq]

/-- `clearCurrent` on a non-empty queue makes the head current. -/
theorem clearCurrent_current_cons (w : World) (m0 : MessageType) (rest : List MessageType)
    (hq : w.queue = m0 :: rest) : (clearCurrent w).currentMessage = some m0 := by
  rw [clearCurrent_unfold, if_neg (by rw [hq]; simp),
    showNext_cons { w with currentMessage := none, isProcessing := false } m0 rest rfl hq]

/-- `clearCurrent` leaves rows untouched whose id appears nowhere in the
queue. -/
theorem storeGet_clearCurrent (w : World) (id : String) (hq : ∀ q ∈ w.queue, q.id ≠ id) :
    storeGet (clearCurrent w).store id = storeGet w.store id := by
  rw [clearCurrent_unfold]
  cases hql : w.queue with
  | nil => rw [if_pos rfl]
  | cons m0 rest =>
      rw [if_neg (List.cons_ne_nil m0 rest)]
      rw [showNext_cons { w with queue := m0 :: rest, currentMessage := none, isProcessing := false } m0 rest rfl rfl]
      show storeGet (updateQueuePositions
        (updateQueueStatus w.store m0.id QueueStatus.showing) (queuePositions rest)) id = _
      rw [storeGet_updateQueuePositions_notMem]
      · exact storeGet_updateQueueStatus_ne w.store m0.id id QueueStatus.showing
          (fun hEq => (hq m0 (by rw [hql]; exact List.mem_cons_self m0 rest)) hEq.symm)
      · rw [queuePositions, queuePositionsFrom_map_fst]
        intro hmem
        obtain ⟨q, hqmem, hqid⟩ := List.mem_map.mp hmem
        exact hq q (by rw [hql]; exact List.mem_cons_of_mem m0 hqmem) hqid

/-- Hidden-mark viewed through `storeGet`, updated id. -/
theorem storeGet_markAsHidden_self (st : Store) (id : String) :
    storeGet (markAsHidden st id) id
      = (storeGet st id).map (fun r => { r with queueStatus := QueueStatus.hidden }) :=
  storeGet_dbUpdate_self st id (fun r => { r with queueStatus := QueueStatus.hidden })
    (fun _ => rfl)

/-- Shown-mark viewed through `storeGet`, updated id. -/
theorem storeGet_markAsShown_self (st : Store) (id : String) :
    storeGet (markAsShown st id) id
      = (storeGet st id).map
          (fun r => { r with queueStatus := QueueStatus.shown, isShown := true }) :=
  storeGet_dbUpdate_self st id
    (fun r => { r with queueStatus := QueueStatus.shown, isShown := true }) (fun _ => rfl)

/-- `clearCurrent` on an empty queue leaves the queue empty. -/
theorem clearCurrent_queue_nil (w : World) (hq : w.queue = []) :
    (clearCurrent w).queue = [] := by
  rw [clearCurrent_unfold, if_pos hq]
  exact hq

/-- `clearCurrent` on a non-empty queue pops the head. -/
theorem clearCurrent_queue_cons (w : World) (m0 : MessageType) (rest : List MessageType)
    (hq : w.queue = m0 :: rest) : (clearCurrent w).queue = rest := by
  rw [clearCurrent_unfold, if_neg (by rw [hq]; simp),
    showNext_cons { w with currentMessage := none, isProcessing := false } m0 rest rfl hq]

/-- `hideNotice` on an open surface for the message that is current: the
destroyed handler runs its `clearCurrent`, and the hook's render-time
snapshot check — whose `currentMessage` still carries the hidden id —
fires a second `clearCurrent`. -/
theorem hideNotice_eq_of_current (id : String) (m : MessageType) (w : World)
    (hop : id ∈ w.openSurfaces) (hc : w.currentMessage = some m) (hid : m.id = id) :
    hideNotice id w = clearCurrent (clearCurrent (handlerBase id w)) := by
  have hEq : clearCurrent { w with
      openSurfaces := w.openSurfaces.filter (fun x => x != id),
      activeWindowIds := w.activeWindowIds.filter (fun x => x != id),
      store := markAsShown (markAsHidden w.store id) id } = clearCurrent (handlerBase id w) :=
    rfl
  simp only [hideNotice, destroyedHandler, removeActiveWindow]
  rw [if_pos hop, hEq, hc]
  dsimp only
  rw [if_pos hid]

/-- Counterexample to C6 as stated: hiding the currently-showing message
"a" ends with its stored row at `queueStatus = shown`, not `hidden` — the
`tauri://destroyed` handler's `markAsShown` overwrites the `markAsHidden`
that `hideNotice` performed first. -/
theorem claim_C6_counterexample :
    (storeGet (hideNotice "a" wC6).store "a").map (fun r => r.queueStatus)
      ≠ some QueueStatus.hidden := by
  decide

/-- C6 (amended): hiding a currently-showing message with an open surface
closes the surface and removes the id from `activeWindowIds`, but neither of
the claim's other effects holds: the stored row ends with
`queueStatus = shown` (the surface-closed handler's `markAsShown` overwrites
the `hidden` status written first), and the next pending message does *not*
stay current — the handler's `clearCurrent` promotes it, but the hook's
render-time snapshot check still sees the hidden id as current and fires a
second `clearCurrent`, which skips it: with no or one queued message the
final current message is none, and with two or more the second one becomes
current. -/
theorem claim_C6_amended (id : String) (m : MessageType) (w : World)
    (hc : w.currentMessage = some m) (hid : m.id = id) (_hb : w.isProcessing = true)
    (hop : id ∈ w.openSurfaces) (hq : ∀ q ∈ w.queue, q.id ≠ id) :
    (storeGet (hideNotice id w).store id).map (fun r => r.queueStatus)
        = (storeGet w.store id).map (fun _ => QueueStatus.shown)
  ∧ id ∉ (hideNotice id w).openSurfaces
  ∧ id ∉ (hideNotice id w).activeWindowIds
  ∧ (w.queue = [] → (hideNotice id w).currentMessage = none)
  ∧ (∀ n, w.queue = [n] → (hideNotice id w).currentMessage = none)
  ∧ (∀ n1 n2 rest, w.queue = n1 :: n2 :: rest →
      (hideNotice id w).currentMessage = some n2) := by
  have hmain := hideNotice_eq_of_current id m w hop hc hid
  have hq1 : ∀ q ∈ (clearCurrent (handlerBase id w)).queue, q.id ≠ id := by
    intro q hqm
    cases hql : w.queue with
    | nil =>
        rw [clearCurrent_queue_nil (handlerBase id w) hql] at hqm
        exact absurd hqm (List.not_mem_nil q)
    | cons m0 rest =>
        rw [clearCurrent_queue_cons (handlerBase id w) m0 rest hql] at hqm
        exact hq q (by rw [hql]; exact List.mem_cons_of_mem m0 hqm)
  refine ⟨?_, ?_, ?_, ?_, ?_, ?_⟩
  · rw [hmain, storeGet_clearCurrent (clearCurrent (handlerBase id w)) id hq1,
      storeGet_clearCurrent (handlerBase id w) id hq]
    show (storeGet (markAsShown (markAsHidden w.store id) id) id).map
        (fun r => r.queueStatus)
      = (storeGet w.store id).map (fun _ => QueueStatus.shown)
    rw [storeGet_markAsShown_self, storeGet_markAsHidden_self]
    cases storeGet w.store id <;> rfl
  · rw [hmain, clearCurrent_openSurfaces, clearCurrent_openSurfaces]
    show id ∉ w.openSurfaces.filter (fun x => x != id)
    intro hmem
    have := (List.mem_filter.mp hmem).2
    simp at this
  · rw [hmain, clearCurrent_activeWindowIds, clearCurrent_activeWindowIds]
    show id ∉ w.activeWindowIds.filter (fun x => x != id)
    intro hmem
    have := (List.mem_filter.mp hmem).2
    simp at this
  · intro hql
    rw [hmain, clearCurrent_current_nil (clearCurrent (handlerBase id w))
      (clearCurrent_queue_nil (handlerBase id w) hql)]
  · intro n hql
    rw [hmain, clearCurrent_current_nil (clearCurrent (handlerBase id w))
      (clearCurrent_queue_cons (handlerBase id w) n [] hql)]
  · intro n1 n2 rest hql
    rw [hmain, clearCurrent_current_cons (clearCurrent (handlerBase id w)) n2 rest
      (clearCurrent_queue_cons (handlerBase id w) n1 (n2 :: rest) hql)]

/-- Witness for the amended C6 at the concrete showing world with one
queued message. -/
theorem claim_C6_amended_witness :
    (storeGet (hideNotice "a" wC6).store "a").map (fun r => r.queueStatus)
        = (storeGet wC6.store "a").map (fun _ => QueueStatus.shown)
  ∧ "a" ∉ (hideNotice "a" wC6).openSurfaces
  ∧ "a" ∉ (hideNotice "a" wC6).activeWindowIds
  ∧ (hideNotice "a" wC6).currentMessage = none := by
  have h := claim_C6_amended "a" msgA wC6 rfl rfl rfl (by decide) (by decide)
  exact ⟨h.1, h.2.1, h.2.2.1, h.2.2.2.2.1 msgB rfl⟩

/-! ### Frame effect of `enqueue` on existing rows -/

/-- A batch position update either leaves a row untouched or rewrites only
its `queuePosition`. -/
theorem storeGet_updateQueuePositions_frame (ps : List (String × Nat)) (st : Store)
    (id : String) :
    storeGet (updateQueuePositions st ps) id = storeGet st id
  ∨ ∃ k, storeGet (updateQueuePositions st ps) id
      = (storeGet st id).map (fun r => { r with queuePosition := k }) := by
  induction ps generalizing st with
  | nil => left; rfl
  | cons p tl ih =>
      rw [updateQueuePositions_cons]
      by_cases hid : id = p.1
      · rcases ih (dbUpdate st p.1 (fun r => { r with queuePosition := p.2 })) with h | ⟨k, h⟩
        · right
          refine ⟨p.2, ?_⟩
          rw [h, hid]
          exact storeGet_dbUpdate_self st p.1 (fun r => { r with queuePosition := p.2 })
            (fun _ => rfl)
        · right
          refine ⟨k, ?_⟩
          rw [h, hid, storeGet_dbUpdate_self st p.1 (fun r => { r with queuePosition := p.2 })
            (fun _ => rfl)]
          cases storeGet st p.1 <;> rfl
      · rcases ih (dbUpdate st p.1 (fun r => { r with queuePosition := p.2 })) with h | ⟨k, h⟩
        · left
          rw [h, storeGet_dbUpdate_ne st p.1 id (fun r => { r with queuePosition := p.2 })
            (fun _ => rfl) hid]
        · right
          exact ⟨k, by rw [h, storeGet_dbUpdate_ne st p.1 id
            (fun r => { r with queuePosition := p.2 }) (fun _ => rfl) hid]⟩

/-- A batch position update keeps every field except `queuePosition` of an
existing row. -/
theorem frame_positions (ps : List (String × Nat)) (st : Store) (id : String)
    (r : StoredMessage) (h : storeGet st id = some r) :
    ∃ r', storeGet (updateQueuePositions st ps) id = some r'
      ∧ r'.toMessageType = r.toMessageType ∧ r'.timestamp = r.timestamp
      ∧ r'.isRead = r.isRead ∧ r'.isShown = r.isShown
      ∧ r'.queueStatus = r.queueStatus := by
  rcases storeGet_updateQueuePositions_frame ps st id with he | ⟨k, he⟩
  · exact ⟨r, by rw [he, h], rfl, rfl, rfl, rfl, rfl⟩
  · refine ⟨{ r with queuePosition := k }, ?_, rfl, rfl, rfl, rfl, rfl⟩
    rw [he, h]
    rfl

/-- Counterexample to C10 as stated: enqueuing a message whose row already
exists (here with `queueStatus = shown`) into an empty idle queue triggers
the auto-show, which rewrites that row's `queueStatus` to `showing`. -/
theorem claim_C10_counterexample :
    ¬ ((storeGet (enqueue 9 msgA wC10).store msgA.id).map (fun r => r.queueStatus)
        = (storeGet wC10.store msgA.id).map (fun r => r.queueStatus)) := by
  decide

/-- C10 (amended): for a message whose id already has a stored row,
`enqueue` never re-saves the row: the row survives with `toMessageType`,
`timestamp`, `isRead` and `isShown` unchanged; `queuePosition` may be
rewritten by the whole-queue position persist, and `queueStatus` is either
unchanged or rewritten to `showing` when the auto-show invoked by `enqueue`
pops a message with this id. -/
theorem claim_C10_amended (now : Nat) (m : MessageType) (w : World) (r : StoredMessage)
    (hr : storeGet w.store m.id = some r) :
    ∃ r', storeGet (enqueue now m w).store m.id = some r'
      ∧ r'.toMessageType = r.toMessageType
      ∧ r'.timestamp = r.timestamp
      ∧ r'.isRead = r.isRead
      ∧ r'.isShown = r.isShown
      ∧ (r'.queueStatus = r.queueStatus ∨ r'.queueStatus = QueueStatus.showing) := by
  have hm : hasMessage w.store m.id = true := by rw [hasMessage, hr]; rfl
  rw [enqueue_unfold]
  dsimp only
  rw [if_pos hm]
  by_cases hi : w.isProcessing = false ∧ w.currentMessage = none
  · rw [if_pos hi]
    by_cases hqa : w.queue.any (fun q => q.id == m.id) = true
    · rw [if_pos hqa]
      have hne : w.queue ≠ [] := by
        intro hnil
        rw [hnil] at hqa
        exact Bool.false_ne_true hqa
      cases hql : w.queue with
      | nil => exact absurd hql hne
      | cons m0 rest =>
          rw [showNext_cons { w with queue := m0 :: rest } m0 rest hi.1 rfl]
          show ∃ r', storeGet (updateQueuePositions
              (updateQueueStatus w.store m0.id QueueStatus.showing)
              (queuePositions rest)) m.id = some r'
            ∧ r'.toMessageType = r.toMessageType ∧ r'.timestamp = r.timestamp
            ∧ r'.isRead = r.isRead ∧ r'.isShown = r.isShown
            ∧ (r'.queueStatus = r.queueStatus ∨ r'.queueStatus = QueueStatus.showing)
          by_cases hid : m0.id = m.id
          · have h1 : storeGet (updateQueueStatus w.store m0.id QueueStatus.showing) m.id
                = some { r with queueStatus := QueueStatus.showing } := by
              rw [hid, storeGet_updateQueueStatus_self, hr]
              rfl
            obtain ⟨r', he, ht, hts, hir, his, hst⟩ :=
              frame_positions (queuePositions rest) _ m.id _ h1
            exact ⟨r', he, ht, hts, hir, his, Or.inr hst⟩
          · have h1 : storeGet (updateQueueStatus w.store m0.id QueueStatus.showing) m.id
                = some r := by
              rw [storeGet_updateQueueStatus_ne w.store m0.id m.id QueueStatus.showing
                (fun hEq => hid hEq.symm)]
              exact hr
            obtain ⟨r', he, ht, hts, hir, his, hst⟩ :=
              frame_positions (queuePositions rest) _ m.id _ h1
            exact ⟨r', he, ht, hts, hir, his, Or.inl hst⟩
    · rw [if_neg hqa]
      cases hql2 : w.queue ++ [m] with
      | nil => exact absurd hql2 (by simp)
      | cons m0 rest =>
          rw [showNext_cons { w with queue := m0 :: rest, store := updateQueuePositions w.store (queuePositions (m0 :: rest)) } m0 rest hi.1 rfl]
          show ∃ r', storeGet (updateQueuePositions
              (updateQueueStatus
                (updateQueuePositions w.store (queuePositions (m0 :: rest)))
                m0.id QueueStatus.showing)
              (queuePositions rest)) m.id = some r'
            ∧ r'.toMessageType = r.toMessageType ∧ r'.timestamp = r.timestamp
            ∧ r'.isRead = r.isRead ∧ r'.isShown = r.isShown
            ∧ (r'.queueStatus = r.queueStatus ∨ r'.queueStatus = QueueStatus.showing)
          obtain ⟨r1, he1, ht1, hts1, hir1, his1, hst1⟩ :=
            frame_positions (queuePositions (m0 :: rest)) w.store m.id r hr
          by_cases hid : m0.id = m.id
          · have h1 : storeGet (updateQueueStatus
                (updateQueuePositions w.store (queuePositions (m0 :: rest)))
                m0.id QueueStatus.showing) m.id
                = some { r1 with queueStatus := QueueStatus.showing } := by
              rw [hid, storeGet_updateQueueStatus_self, he1]
              rfl
            obtain ⟨r', he, ht, hts, hir, his, hst⟩ :=
              frame_positions (queuePositions rest) _ m.id _ h1
            refine ⟨r', he, ?_, ?_, ?_, ?_, Or.inr ?_⟩
            · rw [ht]; exact ht1
            · rw [hts]; exact hts1
            · rw [hir]; exact hir1
            · rw [his]; exact his1
            · rw [hst]
          · have h1 : storeGet (updateQueueStatus
                (updateQueuePositions w.store (queuePositions (m0 :: rest)))
                m0.id QueueStatus.showing) m.id = some r1 := by
              rw [storeGet_updateQueueStatus_ne _ m0.id m.id QueueStatus.showing
                (fun hEq => hid hEq.symm)]
              exact he1
            obtain ⟨r', he, ht, hts, hir, his, hst⟩ :=
              frame_positions (queuePositions rest) _ m.id _ h1
            refine ⟨r', he, ?_, ?_, ?_, ?_, Or.inl ?_⟩
            · rw [ht]; exact ht1
            · rw [hts]; exact hts1
            · rw [hir]; exact hir1
            · rw [his]; exact his1
            · rw [hst]; exact hst1
  · rw [if_neg hi]
    by_cases hqa : w.queue.any (fun q => q.id == m.id) = true
    · rw [if_pos hqa]
      exact ⟨r, hr, rfl, rfl, rfl, rfl, Or.inl rfl⟩
    · rw [if_neg hqa]
      show ∃ r', storeGet (updateQueuePositions w.store
          (queuePositions (w.queue ++ [m]))) m.id = some r'
        ∧ r'.toMessageType = r.toMessageType ∧ r'.timestamp = r.timestamp
        ∧ r'.isRead = r.isRead ∧ r'.isShown = r.isShown
        ∧ (r'.queueStatus = r.queueStatus ∨ r'.queueStatus = QueueStatus.showing)
      obtain ⟨r', he, ht, hts, hir, his, hst⟩ :=
        frame_positions (queuePositions (w.queue ++ [m])) w.store m.id r hr
      exact ⟨r', he, ht, hts, hir, his, Or.inl hst⟩

/-- Witness for the amended C10 at the concrete `shown`-row world. -/
theorem claim_C10_amended_witness :
    ∃ r', storeGet (enqueue 9 msgA wC10).store msgA.id = some r'
      ∧ r'.toMessageType = (mkRow msgA 5 QueueStatus.shown 0).toMessageType
      ∧ r'.timestamp = (mkRow msgA 5 QueueStatus.shown 0).timestamp
      ∧ r'.isRead = (mkRow msgA 5 QueueStatus.shown 0).isRead
      ∧ r'.isShown = (mkRow msgA 5 QueueStatus.shown 0).isShown
      ∧ (r'.queueStatus = (mkRow msgA 5 QueueStatus.shown 0).queueStatus
         ∨ r'.queueStatus = QueueStatus.showing) :=
  claim_C10_amended 9 msgA wC10 (mkRow msgA 5 QueueStatus.shown 0) (by decide)

end NoticeWindow
